import Mathlib

/-!
Verification of the signal-detection / grid-search backtesting core of the
`shark` repository against its natural-language specification.

The Lean definitions below are shallow embeddings of the Python source:

* `calculate_signal_advanced`, `superTradeAt`, `super_backtest_configuration`,
  `hit_rate` embed `super_mega_backtester.py` (class `SuperMegaBacktester`).
* `calculate_accumulation_signal`, `finraTradeAt`,
  `finra_backtest_configuration` embed `super_mega_backtester_finra.py`
  (class `SuperMegaBacktesterFinra`).
* `calculate_signal_for_window`, `megaTradeAt`, `mega_backtest_symbol` embed
  `mega_backtester.py` (class `MegaBacktester`).
* `ultraCI` embeds the 95% confidence interval of
  `calculate_ultra_precise_probabilities` in `mega_backtester_db.py`
  (class `MegaBacktesterDB`).

Modelling conventions:

* pandas rows become `Bar` records; a DataFrame becomes `List Bar`; the
  columns a given backtester never reads are simply ignored by its embedding.
* Python floats become `ℚ`.  Rational division by zero yields `0` in Lean
  where numpy floats yield `±inf`/`NaN`; no theorem below depends on the
  value of a quotient whose denominator is zero — where the guardedness of a
  division is itself at issue (claim C5) the theorems only assert whether a
  window produces a result at all, which is unaffected.
* `pandas.Series.std()` (sample standard deviation, `ddof = 1`, `NaN` on
  fewer than two values) is an irrational square root, so the source's
  comparisons `std/mean*100 < c` (resp. `≤ c`) are embedded as the decidable
  predicates `volLt` (resp. `volLE`), which compare the squares instead; the
  lemmas `volLt_iff` / `volLE_iff` prove them equivalent to the literal
  real-valued comparison against `price_volatilityR` (the `NaN < c` and
  `NaN ≤ c` comparisons of the one-element case are false in Python, hence
  the explicit `2 ≤ closes.length` conjunct).  The `price_volatility` and
  `off_exchange_consistency` entries of the source's result dictionaries are
  square roots that no classifier branch and no claim ever reads back, so
  the embedded records omit them.
* `date.strftime`-derived display columns (`week_start`, `month`) are
  presentation-only and omitted; dates are modelled as naturals.
-/

namespace Shark

/-- One daily row of a per-symbol CSV.  `close`/`volume` are the columns
`Close`/`Volume` of `DB/<ticker>.csv` (read by `super_mega_backtester.py`);
`total_market_volume`/`total_off_exchange_volume` are the columns of
`volume_analysis_*_current.csv` (read by `mega_backtester.py`);
`off_exchange_pct` is the column of `finra_historical_*.csv` (read by
`super_mega_backtester_finra.py`).  Each backtester reads only its own
columns. -/
structure Bar where
  date : ℕ
  close : ℚ
  volume : ℚ
  total_market_volume : ℚ
  total_off_exchange_volume : ℚ
  off_exchange_pct : ℚ
  deriving DecidableEq

instance : Inhabited Bar := ⟨⟨0, 0, 0, 0, 0, 0⟩⟩

/-- `pandas.Series.mean()`: sum divided by length (on an empty series the
source never reads the mean back, see the call sites). -/
def meanQ (l : List ℚ) : ℚ := l.sum / l.length

/-- Sample variance with `ddof = 1`, the square of `pandas.Series.std()`:
`Σ (x - mean)² / (n - 1)`.  pandas returns `NaN` for `n ≤ 1`; in Lean the
division by `0` returns `0`, and every guard built from this definition
carries an explicit `2 ≤ length` conjunct so that the `NaN` case is decided
exactly as Python decides it (all comparisons with `NaN` are false). -/
def sampleVar (l : List ℚ) : ℚ :=
  (l.map (fun x => (x - meanQ l) ^ 2)).sum / ((l.length : ℚ) - 1)

/-- `data.iloc[i]['Close']` (the `getD 0` default is never reached at a call
site, each of which is guarded by an index-in-range check). -/
def closeAt (data : List Bar) (i : ℕ) : ℚ := ((data[i]?).map Bar.close).getD 0

/-- `data.iloc[i]['date']`, cf. `closeAt`. -/
def dateAt (data : List Bar) (i : ℕ) : ℕ := ((data[i]?).map Bar.date).getD 0

/-- The real-valued `price_volatility` of `super_mega_backtester.py` line 54
and `super_mega_backtester_finra.py` line 42:
`window['Close'].std() / window['Close'].mean() * 100` when the mean is
positive, else `0`. -/
noncomputable def price_volatilityR (closes : List ℚ) : ℝ :=
  if 0 < meanQ closes then
    Real.sqrt (sampleVar closes : ℝ) / (meanQ closes : ℝ) * 100
  else 0

/-- Decides `price_volatilityR closes < c` (see `volLt_iff`): for a positive
mean and at least two data points, `√v/m*100 < c ↔ 0 < c ∧ v·100² < c²·m²`;
with fewer than two points pandas' `std` is `NaN` and `NaN < c` is false. -/
def volLt (closes : List ℚ) (c : ℚ) : Bool :=
  if 0 < meanQ closes then
    decide (2 ≤ closes.length) && decide (0 < c) &&
      decide (sampleVar closes * 10000 < c ^ 2 * (meanQ closes) ^ 2)
  else decide (0 < c)

/-- Decides `price_volatilityR closes ≤ c` (see `volLE_iff`), cf. `volLt`. -/
def volLE (closes : List ℚ) (c : ℚ) : Bool :=
  if 0 < meanQ closes then
    decide (2 ≤ closes.length) && decide (0 ≤ c) &&
      decide (sampleVar closes * 10000 ≤ c ^ 2 * (meanQ closes) ^ 2)
  else decide (0 ≤ c)

/-- All signal labels appearing across the embedded classifiers. -/
inductive Signal where
  | HOLD
  | BUY_STRONG
  | BUY_MODERATE
  | SELL_STRONG
  | SELL_MODERATE
  | SELL_WEAK
  | ACCUMULATION_STRONG
  | ACCUMULATION_MODERATE
  | DISTRIBUTION_STRONG
  deriving DecidableEq

/-- `signal.startswith('BUY')`. -/
def Signal.isBuy : Signal → Bool
  | .BUY_STRONG => true
  | .BUY_MODERATE => true
  | _ => false

/-- `signal.startswith('ACCUMULATION')`. -/
def Signal.isAccumulation : Signal → Bool
  | .ACCUMULATION_STRONG => true
  | .ACCUMULATION_MODERATE => true
  | _ => false

/-! ## `super_mega_backtester.py` (`SuperMegaBacktester`) -/

/-- The dictionary returned by `calculate_signal_advanced`
(`super_mega_backtester.py` lines 79-85).  `volumeFactor` is the source's
`volume_ratio` key; the `price_volatility` key is omitted (see the header). -/
structure SignalResult where
  signal : Signal
  volumeFactor : ℚ
  price_change : ℚ
  entry_price : ℚ
  deriving DecidableEq

/-- `SuperMegaBacktester.calculate_signal_advanced(data, start_idx,
analysis_days, volume_thresh, price_thresh)`, lines 32-85.  The window is
`data.iloc[start_idx : start_idx+analysis_days]`; `iloc[0]`/`iloc[-1]` of
that slice are the bars at indices `start_idx` and
`start_idx + analysis_days - 1` of `data`. -/
def calculate_signal_advanced (data : List Bar) (start_idx analysis_days : ℕ)
    (volume_thresh price_thresh : ℚ) : Option SignalResult :=
  -- `if start_idx + analysis_days >= len(data): return None`
  if data.length ≤ start_idx + analysis_days then none
  else
    let window := (data.drop start_idx).take analysis_days
    -- `if len(window) < analysis_days: return None`
    if window.length < analysis_days then none
    else
      let closes := window.map Bar.close
      -- `total_volume = window['Volume'].mean()`
      let total_volume := meanQ (window.map Bar.volume)
      -- `price_change = (window['Close'].iloc[-1] - window['Close'].iloc[0])
      --                  / window['Close'].iloc[0] * 100`
      let price_change :=
        (closeAt data (start_idx + analysis_days - 1) - closeAt data start_idx)
          / closeAt data start_idx * 100
      -- `volume_ma = data.iloc[max(0, start_idx-10):start_idx]['Volume'].mean()`
      -- `volume_ratio = total_volume / volume_ma if volume_ma > 0 else 1`
      let volumeFactor :=
        if 10 ≤ start_idx then
          let volume_ma := meanQ (((data.drop (start_idx - 10)).take 10).map Bar.volume)
          if 0 < volume_ma then total_volume / volume_ma else 1
        else 1
      let signal :=
        if volume_thresh < volumeFactor ∧ price_thresh < price_change ∧
            volLt closes 4 = true then
          Signal.BUY_STRONG
        else if volume_thresh * 1.2 < volumeFactor ∧ |price_change| < price_thresh / 2 ∧
            volLt closes 3 = true then
          Signal.BUY_MODERATE
        else if volume_thresh < volumeFactor ∧ price_change < -price_thresh ∧
            volLt closes 4 = true then
          Signal.SELL_STRONG
        else if volume_thresh * 1.2 < volumeFactor ∧ |price_change| < price_thresh / 2 ∧
            volLt closes 3 = true then
          Signal.SELL_MODERATE
        else Signal.HOLD
      some { signal := signal, volumeFactor := volumeFactor,
             price_change := price_change,
             -- `entry_price = window['Close'].iloc[-1]`
             entry_price := closeAt data (start_idx + analysis_days - 1) }

/-- One row of the `trades` list of
`SuperMegaBacktester.backtest_configuration` (lines 121-128). -/
structure SuperTrade where
  symbol : String
  signal : Signal
  return_pct : ℚ
  correct : Bool
  volumeFactor : ℚ
  price_change_before : ℚ
  deriving DecidableEq

/-- The start indices enumerated by `backtest_configuration`'s loop
`for start_idx in range(15, len(data) - holding_days - analysis_days, 1)`
(line 93): `15, 16, …, n - holding_days - analysis_days - 1`. -/
def superCandidates (n analysis_days holding_days : ℕ) : List ℕ :=
  List.range' 15 (n - holding_days - analysis_days - 15)

/-- The body of `backtest_configuration`'s loop (lines 95-128): the trade the
iteration with this `start_idx` appends, if any. -/
def superTradeAt (symbol : String) (data : List Bar)
    (analysis_days holding_days : ℕ) (volume_thresh price_thresh : ℚ)
    (start_idx : ℕ) : Option SuperTrade :=
  match calculate_signal_advanced data start_idx analysis_days volume_thresh price_thresh with
  | none => none
  | some r =>
    -- `if not signal_result or signal_result['signal'] == 'HOLD': continue`
    if r.signal = Signal.HOLD then none
    else
      let entry_idx := start_idx + analysis_days - 1
      let exit_idx := entry_idx + holding_days
      -- `if exit_idx >= len(data): continue`
      if data.length ≤ exit_idx then none
      else
        let entry_price := r.entry_price
        let exit_price := closeAt data exit_idx
        let raw := (exit_price - entry_price) / entry_price * 100
        -- BUY: `return_pct = raw`, expected "UP"; else (SELL): `return_pct = -raw`
        let return_pct := if r.signal.isBuy then raw else -raw
        -- `actual_direction = "UP" if exit_price > entry_price else "DOWN"`
        let actual_up : Bool := decide (entry_price < exit_price)
        -- `correct = (expected_direction == actual_direction)`
        let correct : Bool := r.signal.isBuy == actual_up
        some { symbol := symbol, signal := r.signal, return_pct := return_pct,
               correct := correct, volumeFactor := r.volumeFactor,
               price_change_before := r.price_change }

/-- `SuperMegaBacktester.backtest_configuration(symbol, data, analysis_days,
holding_days, volume_thresh, price_thresh)`, lines 87-130. -/
def super_backtest_configuration (symbol : String) (data : List Bar)
    (analysis_days holding_days : ℕ) (volume_thresh price_thresh : ℚ) :
    List SuperTrade :=
  (superCandidates data.length analysis_days holding_days).filterMap
    (superTradeAt symbol data analysis_days holding_days volume_thresh price_thresh)

/-- The hit rate of a group of trades,
`signal_trades['correct'].sum() / len(signal_trades) * 100`
(`SuperMegaBacktester.analyze_configuration`, line 209). -/
def hit_rate (trades : List SuperTrade) : ℚ :=
  (trades.countP (fun t => t.correct) : ℚ) / trades.length * 100

/-- The per-signal-type grouping of `analyze_configuration` (line 204):
`df[df['signal'] == signal_type]`. -/
def tradesOfSignal (trades : List SuperTrade) (s : Signal) : List SuperTrade :=
  trades.filter (fun t => t.signal = s)

/-! ## `super_mega_backtester_finra.py` (`SuperMegaBacktesterFinra`) -/

/-- The dictionary returned by `calculate_accumulation_signal`
(`super_mega_backtester_finra.py` lines 80-89); `price_volatility` and
`off_exchange_consistency` are omitted (see the header), and the unused
`avg_volume` local (line 45) is not modelled. -/
structure FinraResult where
  signal : Signal
  confidence : ℕ
  avg_off_exchange_pct : ℚ
  off_exchange_trend : ℚ
  price_change : ℚ
  entry_price : ℚ
  deriving DecidableEq

/-- The window slice `data.iloc[start_idx : start_idx+analysis_days]`. -/
def finraWindow (data : List Bar) (start_idx analysis_days : ℕ) : List Bar :=
  (data.drop start_idx).take analysis_days

/-- `window['off_exchange_pct'].mean()` over the window slice. -/
def finraAvgOffPct (data : List Bar) (start_idx analysis_days : ℕ) : ℚ :=
  meanQ ((finraWindow data start_idx analysis_days).map Bar.off_exchange_pct)

/-- `(window['Close'].iloc[-1] - window['Close'].iloc[0]) /
window['Close'].iloc[0] * 100` over the window slice. -/
def finraPriceChange (data : List Bar) (start_idx analysis_days : ℕ) : ℚ :=
  (closeAt data (start_idx + analysis_days - 1) - closeAt data start_idx)
    / closeAt data start_idx * 100

/-- `off_exchange_trend = window['off_exchange_pct'].iloc[-1] -
window['off_exchange_pct'].iloc[0] if len(window) >= 2 else 0` (lines 48-51). -/
def finraTrend (data : List Bar) (start_idx analysis_days : ℕ) : ℚ :=
  let pcts := (finraWindow data start_idx analysis_days).map Bar.off_exchange_pct
  if 2 ≤ pcts.length then pcts.getLastD 0 - pcts.headI else 0

/-- `SuperMegaBacktesterFinra.calculate_accumulation_signal(data, start_idx,
analysis_days, off_exchange_thresh, price_stability_thresh)`, lines 29-89. -/
def calculate_accumulation_signal (data : List Bar) (start_idx analysis_days : ℕ)
    (off_exchange_thresh price_stability_thresh : ℚ) : Option FinraResult :=
  -- `if start_idx + analysis_days >= len(data): return None`
  if data.length ≤ start_idx + analysis_days then none
  else
    let window := finraWindow data start_idx analysis_days
    -- `if len(window) < analysis_days: return None`
    if window.length < analysis_days then none
    else
      let closes := window.map Bar.close
      let avg_off_exchange_pct := finraAvgOffPct data start_idx analysis_days
      let price_change := finraPriceChange data start_idx analysis_days
      let off_exchange_trend := finraTrend data start_idx analysis_days
      let sc :=
        -- `avg_off_exchange_pct >= off_exchange_thresh and
        --  abs(price_change) <= price_stability_thresh and
        --  price_volatility <= 3.0`
        if off_exchange_thresh ≤ avg_off_exchange_pct ∧
            |price_change| ≤ price_stability_thresh ∧ volLE closes 3 = true then
          if 0 < off_exchange_trend then (Signal.ACCUMULATION_STRONG, 4)
          else (Signal.ACCUMULATION_MODERATE, 3)
        -- `avg_off_exchange_pct >= off_exchange_thresh and
        --  price_change < -price_stability_thresh and
        --  price_change > -price_stability_thresh * 2`
        else if off_exchange_thresh ≤ avg_off_exchange_pct ∧
            price_change < -price_stability_thresh ∧
            -price_stability_thresh * 2 < price_change then
          (Signal.DISTRIBUTION_STRONG, 4)
        else (Signal.HOLD, 1)
      some { signal := sc.1, confidence := sc.2,
             avg_off_exchange_pct := avg_off_exchange_pct,
             off_exchange_trend := off_exchange_trend,
             price_change := price_change,
             entry_price := closeAt data (start_idx + analysis_days - 1) }

/-- One row of the `trades` list of
`SuperMegaBacktesterFinra.backtest_configuration` (lines 130-140). -/
structure FinraTrade where
  symbol : String
  signal : Signal
  return_pct : ℚ
  correct : Bool
  avg_off_exchange_pct : ℚ
  off_exchange_trend : ℚ
  price_change_before : ℚ
  confidence : ℕ
  deriving DecidableEq

/-- The start indices of `backtest_configuration`'s loop
`for start_idx in range(10, len(data) - holding_days - analysis_days, 1)`
(`super_mega_backtester_finra.py` line 97). -/
def finraCandidates (n analysis_days holding_days : ℕ) : List ℕ :=
  List.range' 10 (n - holding_days - analysis_days - 10)

/-- The body of `SuperMegaBacktesterFinra.backtest_configuration`'s loop
(lines 99-140). -/
def finraTradeAt (symbol : String) (data : List Bar)
    (analysis_days holding_days : ℕ) (off_exchange_thresh price_stability_thresh : ℚ)
    (start_idx : ℕ) : Option FinraTrade :=
  match calculate_accumulation_signal data start_idx analysis_days
      off_exchange_thresh price_stability_thresh with
  | none => none
  | some r =>
    if r.signal = Signal.HOLD then none
    else
      let entry_idx := start_idx + analysis_days - 1
      let exit_idx := entry_idx + holding_days
      if data.length ≤ exit_idx then none
      else
        let entry_price := r.entry_price
        let exit_price := closeAt data exit_idx
        let raw := (exit_price - entry_price) / entry_price * 100
        -- ACCUMULATION: `return_pct = raw`, expected "UP"; DISTRIBUTION: `-raw`
        let return_pct := if r.signal.isAccumulation then raw else -raw
        let actual_up : Bool := decide (entry_price < exit_price)
        let correct : Bool := r.signal.isAccumulation == actual_up
        some { symbol := symbol, signal := r.signal, return_pct := return_pct,
               correct := correct, avg_off_exchange_pct := r.avg_off_exchange_pct,
               off_exchange_trend := r.off_exchange_trend,
               price_change_before := r.price_change, confidence := r.confidence }

/-- `SuperMegaBacktesterFinra.backtest_configuration(symbol, data,
analysis_days, holding_days, off_exchange_thresh, price_stability_thresh)`,
lines 91-142. -/
def finra_backtest_configuration (symbol : String) (data : List Bar)
    (analysis_days holding_days : ℕ)
    (off_exchange_thresh price_stability_thresh : ℚ) : List FinraTrade :=
  (finraCandidates data.length analysis_days holding_days).filterMap
    (finraTradeAt symbol data analysis_days holding_days off_exchange_thresh
      price_stability_thresh)

/-! ## `mega_backtester.py` (`MegaBacktester`) -/

/-- The dictionary returned by `calculate_signal_for_window`
(`mega_backtester.py` lines 72-81). -/
structure MegaResult where
  signal : Signal
  confidence : ℕ
  off_exchange_pct : ℚ
  off_exchange_trend : ℚ
  price_change : ℚ
  entry_price : ℚ
  entry_date : ℕ
  volume_trend : ℚ
  deriving DecidableEq

/-- The window slice `data.iloc[start_idx : start_idx+analysis_days]`. -/
def megaWindow (data : List Bar) (start_idx analysis_days : ℕ) : List Bar :=
  (data.drop start_idx).take analysis_days

/-- `complete_window = window[window['total_off_exchange_volume'] > 0]`
(line 28): the sub-window of days with data, over which every metric and the
entry price/date of `MegaBacktester` are computed. -/
def megaComplete (data : List Bar) (start_idx analysis_days : ℕ) : List Bar :=
  (megaWindow data start_idx analysis_days).filter
    (fun b => 0 < b.total_off_exchange_volume)

/-- `MegaBacktester.calculate_signal_for_window(data, start_idx,
analysis_days=3)`, lines 19-81. -/
def calculate_signal_for_window (data : List Bar) (start_idx : ℕ)
    (analysis_days : ℕ := 3) : Option MegaResult :=
  -- `if start_idx + analysis_days >= len(data): return None`
  if data.length ≤ start_idx + analysis_days then none
  else
    let cw := megaComplete data start_idx analysis_days
    -- `if len(complete_window) < 2: return None`
    if cw.length < 2 then none
    else
      let offs := cw.map Bar.total_off_exchange_volume
      let mkts := cw.map Bar.total_market_volume
      let closes := cw.map Bar.close
      let avg_off_exchange := meanQ offs
      let total_volume := meanQ mkts
      -- `off_exchange_pct = avg_off_exchange/total_volume*100 if total_volume > 0 else 0`
      let off_exchange_pct :=
        if 0 < total_volume then avg_off_exchange / total_volume * 100 else 0
      -- `price_change` over `complete_window['Close']`
      let price_change := (closes.getLastD 0 - closes.headI) / closes.headI * 100
      -- `off_exchange_trend = (offs.iloc[-1]/offs.iloc[0] - 1)*100 if len >= 2 else 0`
      let off_exchange_trend :=
        if 2 ≤ cw.length then (offs.getLastD 0 / offs.headI - 1) * 100 else 0
      -- `volume_trend = mkts.iloc[-1] / mkts.mean()`
      let volume_trend := mkts.getLastD 0 / total_volume
      let sc :=
        if 35 < off_exchange_pct ∧ price_change < -1.5 then
          if 0 < off_exchange_trend then (Signal.SELL_STRONG, 4)
          else (Signal.SELL_WEAK, 2)
        else if 40 < off_exchange_pct then (Signal.SELL_MODERATE, 3)
        else if 25 < off_exchange_pct ∧ |price_change| < 2 ∧ 1.1 < volume_trend then
          if 5 < off_exchange_trend then (Signal.BUY_STRONG, 4)
          else (Signal.BUY_MODERATE, 3)
        else (Signal.HOLD, 1)
      some { signal := sc.1, confidence := sc.2,
             off_exchange_pct := off_exchange_pct,
             off_exchange_trend := off_exchange_trend,
             price_change := price_change,
             -- `entry_price = complete_window['Close'].iloc[-1]`
             entry_price := closes.getLastD 0,
             -- `entry_date = complete_window['date'].iloc[-1]`
             entry_date := (cw.map Bar.date).getLastD 0,
             volume_trend := volume_trend }

/-- One row of `MegaBacktester.mega_backtest_symbol`'s trade list (lines
122-139); the `strftime`-derived `week_start`/`month` display columns are
omitted (see the header). -/
structure MegaTrade where
  symbol : String
  entry_date : ℕ
  exit_date : ℕ
  signal : Signal
  confidence : ℕ
  entry_price : ℚ
  exit_price : ℚ
  return_pct : ℚ
  correct : Bool
  off_exchange_pct : ℚ
  off_exchange_trend : ℚ
  price_change_before : ℚ
  volume_trend : ℚ
  holding_days : ℕ
  deriving DecidableEq

/-- The start indices of `mega_backtest_symbol`'s loop
`for start_idx in range(0, len(data) - holding_days - 3, 1)`
(`mega_backtester.py` line 91; the analysis window is fixed at 3 days):
`0, 1, …, n - holding_days - 3 - 1`. -/
def megaCandidates (n holding_days : ℕ) : List ℕ :=
  List.range (n - holding_days - 3)

/-- The body of `mega_backtest_symbol`'s loop (lines 93-142). -/
def megaTradeAt (symbol : String) (data : List Bar) (holding_days : ℕ)
    (start_idx : ℕ) : Option MegaTrade :=
  match calculate_signal_for_window data start_idx 3 with
  | none => none
  | some r =>
    if r.signal = Signal.HOLD then none
    else
      -- `entry_idx = start_idx + 2`, `exit_idx = entry_idx + holding_days`
      let exit_idx := start_idx + 2 + holding_days
      -- `if exit_idx >= len(data): continue`
      if data.length ≤ exit_idx then none
      else
        let entry_price := r.entry_price
        let exit_price := closeAt data exit_idx
        let raw := (exit_price - entry_price) / entry_price * 100
        let return_pct := if r.signal.isBuy then raw else -raw
        let actual_up : Bool := decide (entry_price < exit_price)
        let correct : Bool := r.signal.isBuy == actual_up
        some { symbol := symbol, entry_date := r.entry_date,
               exit_date := dateAt data exit_idx, signal := r.signal,
               confidence := r.confidence, entry_price := entry_price,
               exit_price := exit_price, return_pct := return_pct,
               correct := correct, off_exchange_pct := r.off_exchange_pct,
               off_exchange_trend := r.off_exchange_trend,
               price_change_before := r.price_change,
               volume_trend := r.volume_trend, holding_days := holding_days }

/-- `MegaBacktester.mega_backtest_symbol(symbol, data, holding_days=5)`,
lines 83-145 (the input is assumed date-sorted, as after line 85). -/
def mega_backtest_symbol (symbol : String) (data : List Bar)
    (holding_days : ℕ := 5) : List MegaTrade :=
  (megaCandidates data.length holding_days).filterMap
    (megaTradeAt symbol data holding_days)

/-! ## `mega_backtester_db.py` (`MegaBacktesterDB`): confidence interval -/

/-- The 0/1 numeric view of a boolean `correct` column. -/
def correctVals (l : List Bool) : List ℚ := l.map (fun b => if b then 1 else 0)

/-- The hit fraction `p` of a `correct` column: hits divided by count. -/
def hitFrac (l : List Bool) : ℚ := (l.countP id : ℚ) / l.length

/-- The 95% confidence interval of
`MegaBacktesterDB.calculate_ultra_precise_probabilities`
(`mega_backtester_db.py` lines 276-282): for more than one trade,
`std_error = signal_data['correct'].std() / np.sqrt(len(signal_data))` and
`confidence_interval = 1.96 * std_error * 100`; otherwise `0`. -/
noncomputable def ultraCI (l : List Bool) : ℝ :=
  if 1 < l.length then
    1.96 * (Real.sqrt ((sampleVar (correctVals l) : ℚ) : ℝ) / Real.sqrt (l.length : ℝ)) * 100
  else 0

/-- Modelled from the spec: the claimed aggregator half-width
`1.96 * sqrt(p(1-p)/n) * 100` with `p = hit_rate/100`, `n = count`, and
width `0` when `n ≤ 1` (spec §4.5; the repository's aggregators themselves
are in `src/`, this definition exists only to be compared against
`ultraCI`). -/
noncomputable def specHitHalfWidth (p : ℝ) (n : ℕ) : ℝ :=
  if n ≤ 1 then 0 else 1.96 * Real.sqrt (p * (1 - p) / n) * 100

/-! ## Concrete series used by witnesses and counterexamples -/

/-- A placeholder ticker symbol. -/
def sym0 : String := "XYZ"

/-- A price/volume bar (the columns `SuperMegaBacktester` reads). -/
def pb (d : ℕ) (c v : ℚ) : Bar := ⟨d, c, v, 0, 0, 0⟩

/-- A FINRA bar (the columns `SuperMegaBacktesterFinra` reads). -/
def fb (d : ℕ) (c pct : ℚ) : Bar := ⟨d, c, 0, 0, 0, pct⟩

/-- A volume-analysis bar (the columns `MegaBacktester` reads). -/
def mb (d : ℕ) (c mkt off : ℚ) : Bar := ⟨d, c, 0, mkt, off, 0⟩

/-- A flat 3-bar series. -/
def D3 : List Bar := [pb 0 100 100, pb 1 100 100, pb 2 100 100]

/-- A 13-bar series whose volumes are all `0` (so the trailing-baseline
volume mean is `0`). -/
def D13 : List Bar :=
  [pb 0 1 0, pb 1 1 0, pb 2 1 0, pb 3 1 0, pb 4 1 0, pb 5 1 0, pb 6 1 0,
   pb 7 1 0, pb 8 1 0, pb 9 1 0, pb 10 1 0, pb 11 1 0, pb 12 1 0]

/-- A 19-bar series: flat at close 100 / volume 100, then a volume spike on
days 15-16 with a 2% price drop, after which the close stays at 98 through
the exit day 17.  With `analysis_days = 2`, `holding_days = 1`,
`volume_thresh = 3/2`, `price_thresh = 1` the single candidate start index
15 fires `SELL_STRONG` and the resulting trade exits at its entry price. -/
def D19 : List Bar :=
  [pb 0 100 100, pb 1 100 100, pb 2 100 100, pb 3 100 100, pb 4 100 100,
   pb 5 100 100, pb 6 100 100, pb 7 100 100, pb 8 100 100, pb 9 100 100,
   pb 10 100 100, pb 11 100 100, pb 12 100 100, pb 13 100 100, pb 14 100 100,
   pb 15 100 200, pb 16 98 200, pb 17 98 100, pb 18 100 100]

/-- A 4-bar FINRA series whose first close is `0`. -/
def D4f0 : List Bar := [fb 0 0 40, fb 1 100 45, fb 2 100 50, fb 3 100 50]

/-- Spec §8 Scenario B as a 4-bar FINRA series: over the 3-day window the
off-exchange share averages 45% with trend `+5`pp, the price changes by
`+0.3%`, and the volatility is ≈0.17% (well under the 3% ceiling). -/
def D8acc : List Bar := [fb 0 100 42.5, fb 1 100 45, fb 2 100.3 47.5, fb 3 100 40]

/-- A 10-bar volume-analysis series: days 0-1 carry positive off-exchange
volume and fire `BUY_STRONG` at start index 0, while day 2 (the last day of
that window, and the nominal entry index `start + 2`) has zero off-exchange
volume but the same close, 100, as day 1. -/
def D10m : List Bar :=
  [mb 0 100 100 30, mb 1 100 130 40, mb 2 100 100 0, mb 3 100 100 0,
   mb 4 100 100 0, mb 5 100 100 0, mb 6 100 100 0, mb 7 100 100 0,
   mb 8 100 100 0, mb 9 100 100 0]

/-- The signal result of `calculate_signal_advanced D3 0 2 1 1`. -/
def r0 : SignalResult := ⟨Signal.HOLD, 1, 0, 100⟩

/-- The signal result of `calculate_signal_advanced D13 10 2 1 1`. -/
def r1 : SignalResult := ⟨Signal.HOLD, 1, 0, 1⟩

/-- The signal result of `calculate_signal_for_window D10m 0 3`. -/
def rm0 : MegaResult := ⟨Signal.BUY_STRONG, 4, 700/23, 100/3, 0, 100, 1, 26/23⟩

/-- The trade emitted by `superTradeAt sym0 D19 2 1 (3/2) 1 15`. -/
def t0s : SuperTrade := ⟨sym0, Signal.SELL_STRONG, 0, true, 2, -2⟩

/-! ## Helper lemmas -/

theorem getLastD_mem {α : Type} : ∀ (l : List α) (d : α), l ≠ [] → l.getLastD d ∈ l := by
  intro l
  induction l with
  | nil => intro d h; exact absurd rfl h
  | cons a t ih =>
    intro d _
    cases t with
    | nil => simp
    | cons b u =>
      have h := ih a (by simp)
      simp only [List.getLastD_cons] at h ⊢
      exact List.mem_cons_of_mem _ h

theorem getLastD_map {α β : Type} (f : α → β) (y : β) :
    ∀ (l : List α) (d : α), l ≠ [] → (l.map f).getLastD y = f (l.getLastD d) := by
  intro l
  induction l with
  | nil => intro d h; exact absurd rfl h
  | cons a t ih =>
    intro d _
    cases t with
    | nil => simp
    | cons b u =>
      have h := ih a (by simp)
      simp only [List.map_cons, List.getLastD_cons] at h ⊢
      exact h

theorem dropLast_append_getLastD {α : Type} :
    ∀ (l : List α) (d : α), l ≠ [] → l = l.dropLast ++ [l.getLastD d] := by
  intro l
  induction l with
  | nil => intro d h; exact absurd rfl h
  | cons a t ih =>
    intro d _
    cases t with
    | nil => simp
    | cons b u =>
      have h := ih a (by simp)
      simp only [List.getLastD_cons] at h ⊢
      simp only [List.dropLast_cons₂, List.cons_append]
      exact congrArg (a :: ·) h

theorem filter_last_false_subset_dropLast {α : Type} (p : α → Bool) (l : List α) (d : α)
    (hl : l ≠ []) (hlast : p (l.getLastD d) = false) :
    ∀ x ∈ l.filter p, x ∈ l.dropLast := by
  intro x hx
  have hone : List.filter p [l.getLastD d] = [] := by
    simp only [List.filter_cons, List.filter_nil, hlast]
    rfl
  have hfil : l.filter p = l.dropLast.filter p := by
    conv_lhs => rw [dropLast_append_getLastD l d hl]
    rw [List.filter_append, hone, List.append_nil]
  rw [hfil] at hx
  exact List.mem_of_mem_filter hx

theorem sampleVar_nonneg (l : List ℚ) (h2 : 2 ≤ l.length) : 0 ≤ sampleVar l := by
  unfold sampleVar
  apply div_nonneg
  · apply List.sum_nonneg
    intro x hx
    obtain ⟨y, _, rfl⟩ := List.mem_map.1 hx
    positivity
  · have : (2 : ℚ) ≤ (l.length : ℚ) := by exact_mod_cast h2
    linarith

theorem slice_length (data : List Bar) (i w : ℕ) (h : i + w ≤ data.length) :
    ((data.drop i).take w).length = w := by
  simp only [List.length_take, List.length_drop]
  omega

theorem sqrt_ten_thousand : Real.sqrt 10000 = 100 := by
  rw [show (10000 : ℝ) = 100 ^ 2 by norm_num, Real.sqrt_sq (by norm_num : (0:ℝ) ≤ 100)]

/-- `volLt` decides the source's strict volatility comparison: for a window
with at least two closes, `volLt closes c = true` iff
`std/mean*100 < c` read over the reals. -/
theorem volLt_iff (closes : List ℚ) (c : ℚ) (h2 : 2 ≤ closes.length) :
    volLt closes c = true ↔ price_volatilityR closes < (c : ℝ) := by
  unfold volLt price_volatilityR
  by_cases hm : 0 < meanQ closes
  · rw [if_pos hm, if_pos hm]
    simp only [Bool.and_eq_true, decide_eq_true_eq]
    have hm' : (0:ℝ) < ((meanQ closes : ℚ) : ℝ) := by exact_mod_cast hm
    have hvnn : (0:ℝ) ≤ ((sampleVar closes : ℚ) : ℝ) := by
      exact_mod_cast sampleVar_nonneg closes h2
    have hkey : Real.sqrt ((sampleVar closes : ℚ) : ℝ) * 100 =
        Real.sqrt (((sampleVar closes : ℚ) : ℝ) * 10000) := by
      rw [Real.sqrt_mul hvnn, sqrt_ten_thousand]
    constructor
    · rintro ⟨⟨-, hc⟩, hv⟩
      have hc' : (0:ℝ) < (c:ℝ) := by exact_mod_cast hc
      have hv' : ((sampleVar closes : ℚ) : ℝ) * 10000 <
          (c:ℝ) ^ 2 * ((meanQ closes : ℚ) : ℝ) ^ 2 := by exact_mod_cast hv
      rw [div_mul_eq_mul_div, div_lt_iff₀ hm', hkey]
      exact (Real.sqrt_lt' (mul_pos hc' hm')).2 (by nlinarith)
    · intro hlt
      have hc' : (0:ℝ) < (c:ℝ) := by
        have h0 : (0:ℝ) ≤ Real.sqrt ((sampleVar closes : ℚ) : ℝ) / ((meanQ closes : ℚ) : ℝ) * 100 := by
          positivity
        linarith
    -- from `√v/m*100 < c` recover the squared comparison
      have hlt2 : Real.sqrt (((sampleVar closes : ℚ) : ℝ) * 10000) < (c:ℝ) * ((meanQ closes : ℚ) : ℝ) := by
        rw [← hkey]
        calc Real.sqrt ((sampleVar closes : ℚ) : ℝ) * 100
            = Real.sqrt ((sampleVar closes : ℚ) : ℝ) / ((meanQ closes : ℚ) : ℝ) * 100 *
              ((meanQ closes : ℚ) : ℝ) := by field_simp
          _ < (c:ℝ) * ((meanQ closes : ℚ) : ℝ) := by
              exact mul_lt_mul_of_pos_right hlt hm'
      have hsq := (Real.sqrt_lt' (mul_pos hc' hm')).1 hlt2
      refine ⟨⟨h2, by exact_mod_cast hc'⟩, ?_⟩
      have : ((sampleVar closes : ℚ) : ℝ) * 10000 < (c:ℝ) ^ 2 * ((meanQ closes : ℚ) : ℝ) ^ 2 := by
        nlinarith
      exact_mod_cast this
  · rw [if_neg hm, if_neg hm]
    simp only [decide_eq_true_eq]
    constructor
    · intro h; exact_mod_cast h
    · intro h; exact_mod_cast h

/-- `volLE` decides the source's non-strict volatility comparison, cf.
`volLt_iff`. -/
theorem volLE_iff (closes : List ℚ) (c : ℚ) (h2 : 2 ≤ closes.length) :
    volLE closes c = true ↔ price_volatilityR closes ≤ (c : ℝ) := by
  unfold volLE price_volatilityR
  by_cases hm : 0 < meanQ closes
  · rw [if_pos hm, if_pos hm]
    simp only [Bool.and_eq_true, decide_eq_true_eq]
    have hm' : (0:ℝ) < ((meanQ closes : ℚ) : ℝ) := by exact_mod_cast hm
    have hvnn : (0:ℝ) ≤ ((sampleVar closes : ℚ) : ℝ) := by
      exact_mod_cast sampleVar_nonneg closes h2
    have hkey : Real.sqrt ((sampleVar closes : ℚ) : ℝ) * 100 =
        Real.sqrt (((sampleVar closes : ℚ) : ℝ) * 10000) := by
      rw [Real.sqrt_mul hvnn, sqrt_ten_thousand]
    constructor
    · rintro ⟨⟨-, hc⟩, hv⟩
      have hc' : (0:ℝ) ≤ (c:ℝ) := by exact_mod_cast hc
      have hv' : ((sampleVar closes : ℚ) : ℝ) * 10000 ≤
          (c:ℝ) ^ 2 * ((meanQ closes : ℚ) : ℝ) ^ 2 := by exact_mod_cast hv
      rw [div_mul_eq_mul_div, div_le_iff₀ hm', hkey]
      have hcm : (0:ℝ) ≤ (c:ℝ) * ((meanQ closes : ℚ) : ℝ) := by positivity
      calc Real.sqrt (((sampleVar closes : ℚ) : ℝ) * 10000)
          ≤ Real.sqrt ((c:ℝ) ^ 2 * ((meanQ closes : ℚ) : ℝ) ^ 2) :=
            Real.sqrt_le_sqrt (by nlinarith)
        _ = (c:ℝ) * ((meanQ closes : ℚ) : ℝ) := by
            rw [show (c:ℝ) ^ 2 * ((meanQ closes : ℚ) : ℝ) ^ 2 =
              ((c:ℝ) * ((meanQ closes : ℚ) : ℝ)) ^ 2 by ring, Real.sqrt_sq hcm]
    · intro hle
      have hc' : (0:ℝ) ≤ (c:ℝ) := by
        have h0 : (0:ℝ) ≤ Real.sqrt ((sampleVar closes : ℚ) : ℝ) / ((meanQ closes : ℚ) : ℝ) * 100 := by
          positivity
        linarith
      have hle2 : Real.sqrt (((sampleVar closes : ℚ) : ℝ) * 10000) ≤
          (c:ℝ) * ((meanQ closes : ℚ) : ℝ) := by
        rw [← hkey]
        calc Real.sqrt ((sampleVar closes : ℚ) : ℝ) * 100
            = Real.sqrt ((sampleVar closes : ℚ) : ℝ) / ((meanQ closes : ℚ) : ℝ) * 100 *
              ((meanQ closes : ℚ) : ℝ) := by field_simp
          _ ≤ (c:ℝ) * ((meanQ closes : ℚ) : ℝ) := by
              exact mul_le_mul_of_nonneg_right hle (le_of_lt hm')
      have hsq : ((sampleVar closes : ℚ) : ℝ) * 10000 ≤ ((c:ℝ) * ((meanQ closes : ℚ) : ℝ)) ^ 2 := by
        have := Real.sq_sqrt (show (0:ℝ) ≤ ((sampleVar closes : ℚ) : ℝ) * 10000 by positivity)
        nlinarith [Real.sqrt_nonneg (((sampleVar closes : ℚ) : ℝ) * 10000)]
      refine ⟨⟨h2, by exact_mod_cast hc'⟩, ?_⟩
      have : ((sampleVar closes : ℚ) : ℝ) * 10000 ≤ (c:ℝ) ^ 2 * ((meanQ closes : ℚ) : ℝ) ^ 2 := by
        nlinarith
      exact_mod_cast this
  · rw [if_neg hm, if_neg hm]
    simp only [decide_eq_true_eq]
    constructor
    · intro h; exact_mod_cast h
    · intro h; exact_mod_cast h

/-! ## Claim C1 -/

/-- C1 counterexample: a 10-bar series with `analysis_days = 3`,
`holding_days = 5` is claimed to have exactly `10 - 3 - 5 + 1 = 3` candidate
start indices; `MegaBacktester` evaluates only 2 of them (its `range` upper
bound is exclusive) and `SuperMegaBacktester` evaluates none (its loop
starts at 15). -/
theorem C1_counterexample :
    (megaCandidates 10 5).length = 2 ∧ superCandidates 10 3 5 = [] := by decide

/-- C1 (amended): the candidate start indices evaluated are exactly
`0, …, n - holding_days - 3 - 1` in `MegaBacktester.mega_backtest_symbol`
(whose analysis window is fixed at 3 bars) and exactly
`15, …, n - holding_days - analysis_days - 1` in
`SuperMegaBacktester.backtest_configuration`; each backtest emits at most
one trade per candidate. -/
theorem C1_amended :
    (∀ n h i, i ∈ megaCandidates n h ↔ i < n - h - 3) ∧
    (∀ n a h i, i ∈ superCandidates n a h ↔ 15 ≤ i ∧ i < n - h - a) ∧
    (∀ n h, (megaCandidates n h).length = n - h - 3) ∧
    (∀ n a h, (superCandidates n a h).length = n - h - a - 15) ∧
    (∀ s data h, (mega_backtest_symbol s data h).length ≤ (megaCandidates data.length h).length) ∧
    (∀ s data a h vt pt,
      (super_backtest_configuration s data a h vt pt).length ≤
        (superCandidates data.length a h).length) := by
  refine ⟨?_, ?_, ?_, ?_, ?_, ?_⟩
  · intro n h i
    simp [megaCandidates, List.mem_range]
  · intro n a h i
    simp only [superCandidates, List.mem_range'_1]
    omega
  · intro n h
    simp [megaCandidates]
  · intro n a h
    simp [superCandidates]
  · intro s data h
    simp only [mega_backtest_symbol]
    exact List.length_filterMap_le _ _
  · intro s data a h vt pt
    simp only [super_backtest_configuration]
    exact List.length_filterMap_le _ _

/-! ## Claim C3 -/

/-- C3: a series shorter than `analysis_days + holding_days` bars yields an
empty trade list from both `SuperMegaBacktester.backtest_configuration` and
`SuperMegaBacktesterFinra.backtest_configuration` (both loops are then
empty; the embedded functions are total, so no error is possible). -/
theorem C3_short_series_empty (s : String) (data : List Bar) (a h : ℕ) (vt pt th st : ℚ)
    (hlen : data.length < a + h) :
    super_backtest_configuration s data a h vt pt = [] ∧
    finra_backtest_configuration s data a h th st = [] := by
  have h1 : data.length - h - a - 15 = 0 := by omega
  have h2 : data.length - h - a - 10 = 0 := by omega
  constructor
  · simp [super_backtest_configuration, superCandidates, h1]
  · simp [finra_backtest_configuration, finraCandidates, h2]

/-- C3 witness: a 3-bar series with `analysis_days = holding_days = 2`. -/
theorem C3_witness :
    D3.length < 2 + 2 ∧
    super_backtest_configuration sym0 D3 2 2 1 1 = [] ∧
    finra_backtest_configuration sym0 D3 2 2 1 1 = [] :=
  ⟨by norm_num [D3], (C3_short_series_empty sym0 D3 2 2 1 1 1 1 (by norm_num [D3])).1,
   (C3_short_series_empty sym0 D3 2 2 1 1 1 1 (by norm_num [D3])).2⟩

/-! ## Claim C4 -/

/-- C4 counterexample: a window that ends exactly at the last bar
(`i + w = len(series)`, here `0 + 3 = 3`) is claimed to produce metrics, but
`calculate_signal_advanced` returns `None` for it (its guard is
`start_idx + analysis_days >= len(data)`, not `>`). -/
theorem C4_counterexample :
    D3.length = 0 + 3 ∧ calculate_signal_advanced D3 0 3 1 1 = none := by
  refine ⟨by norm_num [D3], ?_⟩
  norm_num [calculate_signal_advanced, D3]

/-- C4 (amended): both window calculators reject the window ending exactly
at the last bar, because the guard is `start_idx + analysis_days >=
len(data)`.  For `SuperMegaBacktester.calculate_signal_advanced` (window
length `w ≥ 1`) that is the only rejection: it returns "insufficient data"
(`none`) exactly when `i + w ≥ len(series)` and computes metrics over the
half-open slice `[i, i+w)` exactly when `i + w < len(series)`.
`MegaBacktester.calculate_signal_for_window` additionally requires at least
2 window days with positive off-exchange volume: it returns metrics exactly
when `i + 3 < len(series)` *and* the filtered sub-window has at least 2
days. -/
theorem C4_amended :
    (∀ (data : List Bar) (i w : ℕ) (vt pt : ℚ), 1 ≤ w →
      ((calculate_signal_advanced data i w vt pt).isSome = true ↔ i + w < data.length)) ∧
    (∀ (data : List Bar) (i : ℕ),
      (calculate_signal_for_window data i 3).isSome = true ↔
        i + 3 < data.length ∧ 2 ≤ (megaComplete data i 3).length) := by
  constructor
  · intro data i w vt pt _hw
    simp only [calculate_signal_advanced]
    by_cases hlen : data.length ≤ i + w
    · simp only [if_pos hlen, Option.isSome_none]
      constructor
      · intro h; exact absurd h (by simp)
      · intro h; omega
    · have hwlen : ((data.drop i).take w).length = w := slice_length data i w (by omega)
      simp only [if_neg hlen, hwlen, lt_irrefl, if_neg (lt_irrefl w).elim]
      constructor
      · intro _; omega
      · intro _; simp
  · intro data i
    simp only [calculate_signal_for_window]
    by_cases h1 : data.length ≤ i + 3
    · rw [if_pos h1]
      simp only [Option.isSome_none, Bool.false_eq_true, false_iff, not_and]
      intro h
      omega
    · rw [if_neg h1]
      by_cases h2 : (megaComplete data i 3).length < 2
      · rw [if_pos h2]
        simp only [Option.isSome_none, Bool.false_eq_true, false_iff, not_and]
        intro _
        omega
      · rw [if_neg h2]
        simp only [Option.isSome_some, true_iff]
        exact ⟨by omega, by omega⟩

/-- C4 witness: the super calculator returns metrics for `i + w = 2 < 3`,
and the mega calculator returns metrics at start 0 of the 10-bar `D10m`
series, whose first window has exactly 2 positive-off-exchange days. -/
theorem C4_witness :
    (calculate_signal_advanced D3 0 2 1 1).isSome = true ∧
    (calculate_signal_for_window D10m 0 3).isSome = true :=
  ⟨(C4_amended.1 D3 0 2 1 1 (by norm_num)).mpr (by norm_num [D3]),
   (C4_amended.2 D10m 0).mpr ⟨by norm_num [D10m],
     by norm_num [megaComplete, megaWindow, D10m, mb]⟩⟩

/-! ## Claim C9 -/

/-- C9: `calculate_signal_advanced` never returns `SELL_MODERATE`: its guard
is syntactically identical to the earlier-evaluated `BUY_MODERATE` guard, so
that branch is unreachable. -/
theorem C9_no_sell_moderate (data : List Bar) (i a : ℕ) (vt pt : ℚ) (r : SignalResult)
    (h : calculate_signal_advanced data i a vt pt = some r) :
    r.signal ≠ Signal.SELL_MODERATE := by
  simp only [calculate_signal_advanced] at h
  split_ifs at h <;>
    first
      | exact Option.noConfusion h
      | (obtain rfl := Option.some.inj h; simp)

/-- C9 witness: a concrete evaluation of `calculate_signal_advanced`
(returning `HOLD` here), to which the theorem applies. -/
theorem C9_witness :
    calculate_signal_advanced D3 0 2 1 1 = some r0 ∧ r0.signal ≠ Signal.SELL_MODERATE :=
  ⟨by norm_num [calculate_signal_advanced, D3, r0, pb, closeAt, meanQ, volLt, sampleVar],
   C9_no_sell_moderate D3 0 2 1 1 r0
     (by norm_num [calculate_signal_advanced, D3, r0, pb, closeAt, meanQ, volLt, sampleVar])⟩

/-! ## Claim C2 -/

theorem super_entry_price (data : List Bar) (i a : ℕ) (vt pt : ℚ) (r : SignalResult)
    (h : calculate_signal_advanced data i a vt pt = some r) :
    r.entry_price = closeAt data (i + a - 1) := by
  simp only [calculate_signal_advanced] at h
  split_ifs at h <;>
    first
      | exact Option.noConfusion h
      | (obtain rfl := Option.some.inj h; rfl)

theorem finra_entry_price (data : List Bar) (i a : ℕ) (th st : ℚ) (r : FinraResult)
    (h : calculate_accumulation_signal data i a th st = some r) :
    r.entry_price = closeAt data (i + a - 1) := by
  simp only [calculate_accumulation_signal] at h
  split_ifs at h <;>
    first
      | exact Option.noConfusion h
      | (obtain rfl := Option.some.inj h; rfl)

/-- C2: every emitted trade's `return_pct` is the raw forward return
`(exit - entry)/entry * 100` for BUY/ACCUMULATION-family signals and its
negation for the other (SELL/DISTRIBUTION) signals; consequently, with a
positive entry price, a BUY/ACCUMULATION trade whose exit exceeds its entry
and a SELL/DISTRIBUTION trade whose exit is below its entry both have
`return_pct > 0`.  The entry index is `start + analysis_days - 1` and the
exit index `holding_days` later. -/
theorem C2_return_sign :
    (∀ (s : String) (data : List Bar) (a h i : ℕ) (vt pt : ℚ) (t : SuperTrade),
      superTradeAt s data a h vt pt i = some t →
      ((t.signal.isBuy = true →
          t.return_pct = (closeAt data (i + a - 1 + h) - closeAt data (i + a - 1)) /
            closeAt data (i + a - 1) * 100) ∧
       (t.signal.isBuy = false →
          t.return_pct = -((closeAt data (i + a - 1 + h) - closeAt data (i + a - 1)) /
            closeAt data (i + a - 1) * 100)) ∧
       (0 < closeAt data (i + a - 1) →
         ((t.signal.isBuy = true → closeAt data (i + a - 1) < closeAt data (i + a - 1 + h) →
            0 < t.return_pct) ∧
          (t.signal.isBuy = false → closeAt data (i + a - 1 + h) < closeAt data (i + a - 1) →
            0 < t.return_pct))))) ∧
    (∀ (s : String) (data : List Bar) (a h i : ℕ) (th st : ℚ) (t : FinraTrade),
      finraTradeAt s data a h th st i = some t →
      ((t.signal.isAccumulation = true →
          t.return_pct = (closeAt data (i + a - 1 + h) - closeAt data (i + a - 1)) /
            closeAt data (i + a - 1) * 100) ∧
       (t.signal.isAccumulation = false →
          t.return_pct = -((closeAt data (i + a - 1 + h) - closeAt data (i + a - 1)) /
            closeAt data (i + a - 1) * 100)) ∧
       (0 < closeAt data (i + a - 1) →
         ((t.signal.isAccumulation = true →
            closeAt data (i + a - 1) < closeAt data (i + a - 1 + h) → 0 < t.return_pct) ∧
          (t.signal.isAccumulation = false →
            closeAt data (i + a - 1 + h) < closeAt data (i + a - 1) → 0 < t.return_pct))))) := by
  constructor
  · intro s data a h i vt pt t ht
    unfold superTradeAt at ht
    cases hc : calculate_signal_advanced data i a vt pt with
    | none => rw [hc] at ht; exact Option.noConfusion ht
    | some r =>
      rw [hc] at ht
      have hep : r.entry_price = closeAt data (i + a - 1) :=
        super_entry_price data i a vt pt r hc
      dsimp only at ht
      rw [hep] at ht
      by_cases hH : r.signal = Signal.HOLD
      · rw [if_pos hH] at ht; exact Option.noConfusion ht
      rw [if_neg hH] at ht
      by_cases hX : data.length ≤ i + a - 1 + h
      · rw [if_pos hX] at ht; exact Option.noConfusion ht
      rw [if_neg hX] at ht
      by_cases hB : r.signal.isBuy = true
      · rw [if_pos hB] at ht
        obtain rfl := Option.some.inj ht
        refine ⟨fun _ => rfl, fun hb => ?_, fun hpos => ⟨fun _ hlt => ?_, fun hb _ => ?_⟩⟩
        · dsimp only at hb; rw [hB] at hb; exact Bool.noConfusion hb
        · have h1 : 0 < (closeAt data (i + a - 1 + h) - closeAt data (i + a - 1)) /
              closeAt data (i + a - 1) := div_pos (by linarith) hpos
          exact mul_pos h1 (by norm_num)
        · dsimp only at hb; rw [hB] at hb; exact Bool.noConfusion hb
      · rw [if_neg hB] at ht
        have hb0 : r.signal.isBuy = false := by simpa using hB
        obtain rfl := Option.some.inj ht
        refine ⟨fun hb => ?_, fun _ => rfl, fun hpos => ⟨fun hb _ => ?_, fun _ hlt => ?_⟩⟩
        · dsimp only at hb; rw [hb0] at hb; exact Bool.noConfusion hb
        · dsimp only at hb; rw [hb0] at hb; exact Bool.noConfusion hb
        · have h1 : (closeAt data (i + a - 1 + h) - closeAt data (i + a - 1)) /
              closeAt data (i + a - 1) < 0 := div_neg_of_neg_of_pos (by linarith) hpos
          have h2 := mul_neg_of_neg_of_pos h1 (show (0:ℚ) < 100 by norm_num)
          dsimp only
          linarith
  · intro s data a h i th st t ht
    unfold finraTradeAt at ht
    cases hc : calculate_accumulation_signal data i a th st with
    | none => rw [hc] at ht; exact Option.noConfusion ht
    | some r =>
      rw [hc] at ht
      have hep : r.entry_price = closeAt data (i + a - 1) :=
        finra_entry_price data i a th st r hc
      dsimp only at ht
      rw [hep] at ht
      by_cases hH : r.signal = Signal.HOLD
      · rw [if_pos hH] at ht; exact Option.noConfusion ht
      rw [if_neg hH] at ht
      by_cases hX : data.length ≤ i + a - 1 + h
      · rw [if_pos hX] at ht; exact Option.noConfusion ht
      rw [if_neg hX] at ht
      by_cases hB : r.signal.isAccumulation = true
      · rw [if_pos hB] at ht
        obtain rfl := Option.some.inj ht
        refine ⟨fun _ => rfl, fun hb => ?_, fun hpos => ⟨fun _ hlt => ?_, fun hb _ => ?_⟩⟩
        · dsimp only at hb; rw [hB] at hb; exact Bool.noConfusion hb
        · have h1 : 0 < (closeAt data (i + a - 1 + h) - closeAt data (i + a - 1)) /
              closeAt data (i + a - 1) := div_pos (by linarith) hpos
          exact mul_pos h1 (by norm_num)
        · dsimp only at hb; rw [hB] at hb; exact Bool.noConfusion hb
      · rw [if_neg hB] at ht
        have hb0 : r.signal.isAccumulation = false := by simpa using hB
        obtain rfl := Option.some.inj ht
        refine ⟨fun hb => ?_, fun _ => rfl, fun hpos => ⟨fun hb _ => ?_, fun _ hlt => ?_⟩⟩
        · dsimp only at hb; rw [hb0] at hb; exact Bool.noConfusion hb
        · dsimp only at hb; rw [hb0] at hb; exact Bool.noConfusion hb
        · have h1 : (closeAt data (i + a - 1 + h) - closeAt data (i + a - 1)) /
              closeAt data (i + a - 1) < 0 := div_neg_of_neg_of_pos (by linarith) hpos
          have h2 := mul_neg_of_neg_of_pos h1 (show (0:ℚ) < 100 by norm_num)
          dsimp only
          linarith

/-- C2 witness: the `SELL_STRONG` trade of the `D19` series (a SELL-family
trade, so its `return_pct` is the negated raw return). -/
theorem C2_witness :
    superTradeAt sym0 D19 2 1 (3/2) 1 15 = some t0s ∧
    t0s.return_pct = -((closeAt D19 (15 + 2 - 1 + 1) - closeAt D19 (15 + 2 - 1)) /
      closeAt D19 (15 + 2 - 1) * 100) := by
  have hc : superTradeAt sym0 D19 2 1 (3/2) 1 15 = some t0s := by
    norm_num [superTradeAt, calculate_signal_advanced, D19, pb, t0s, closeAt, meanQ,
      volLt, sampleVar, Signal.isBuy]
    exact fun hcontra => Signal.noConfusion hcontra
  exact ⟨hc, ((C2_return_sign.1 sym0 D19 2 1 15 (3/2) 1 t0s hc).2.1 (by norm_num [t0s, Signal.isBuy]))⟩

/-! ## Claim C5 -/

/-- C5 counterexample: the spec claims a window whose first close is `0` is
skipped (classified `NONE`); `calculate_accumulation_signal` has no such
guard and still returns a result for it (in Python the `price_change`
division by the zero close produces an `inf`/`NaN` float, not a skip). -/
theorem C5_counterexample :
    closeAt D4f0 0 = 0 ∧ (calculate_accumulation_signal D4f0 0 3 35 1).isSome = true := by
  constructor
  · norm_num [closeAt, D4f0, fb]
  · norm_num [calculate_accumulation_signal, finraWindow, finraAvgOffPct, finraPriceChange,
      finraTrend, D4f0, fb, closeAt, meanQ, volLE, sampleVar]

/-- C5 (amended): the trailing-baseline volume division and the volatility
division substitute neutral values (`volume_ratio = 1` when the baseline
mean is not positive, `price_volatility = 0` when the close mean is not
positive), but the `price_change` division by `close[first]` is unguarded:
a window whose first close is `0` is *not* skipped — for every in-range
window the calculator returns a result. -/
theorem C5_amended :
    (∀ (data : List Bar) (i a : ℕ) (vt pt : ℚ) (r : SignalResult),
      calculate_signal_advanced data i a vt pt = some r → 10 ≤ i →
      meanQ (((data.drop (i - 10)).take 10).map Bar.volume) ≤ 0 →
      r.volumeFactor = 1) ∧
    (∀ closes : List ℚ, meanQ closes ≤ 0 → price_volatilityR closes = 0) ∧
    (∀ (data : List Bar) (i w : ℕ) (th st : ℚ), 1 ≤ w → i + w < data.length →
      (calculate_accumulation_signal data i w th st).isSome = true) := by
  refine ⟨?_, ?_, ?_⟩
  · intro data i a vt pt r h h10 hma
    simp only [calculate_signal_advanced] at h
    split_ifs at h <;>
      first
        | exact Option.noConfusion h
        | (obtain rfl := Option.some.inj h; rfl)
        | (obtain rfl := Option.some.inj h; exact absurd hma (by linarith))
  · intro closes hm
    unfold price_volatilityR
    rw [if_neg (not_lt.2 hm)]
  · intro data i w th st hw hlen
    simp only [calculate_accumulation_signal, finraWindow]
    have hwlen : ((data.drop i).take w).length = w := slice_length data i w (by omega)
    rw [if_neg (by omega : ¬ data.length ≤ i + w),
      if_neg (by rw [hwlen]; exact lt_irrefl w)]
    rfl

/-- C5 witness: concrete instances of all three amended conjuncts — a
zero-volume baseline giving `volume_ratio = 1`, a zero-mean window giving
volatility `0`, and an in-range window that produces a result. -/
theorem C5_witness :
    (calculate_signal_advanced D13 10 2 1 1 = some r1 ∧ r1.volumeFactor = 1) ∧
    price_volatilityR [0] = 0 ∧
    (calculate_accumulation_signal D4f0 1 2 35 1).isSome = true := by
  have hcalc : calculate_signal_advanced D13 10 2 1 1 = some r1 := by
    norm_num [calculate_signal_advanced, D13, pb, r1, closeAt, meanQ, volLt, sampleVar]
  exact ⟨⟨hcalc, C5_amended.1 D13 10 2 1 1 r1 hcalc (by norm_num)
      (by norm_num [D13, pb, meanQ])⟩,
    C5_amended.2.1 [0] (by norm_num [meanQ]),
    C5_amended.2.2 D4f0 1 2 35 1 (by norm_num) (by norm_num [D4f0])⟩

/-! ## Claim C8 -/

/-- C8: whenever the window's mean off-exchange share reaches
`off_exchange_threshold_pct`, its absolute price change is within
`price_stability_threshold_pct`, and its volatility is at most the fixed
3.0% ceiling, the off-exchange classifier returns `ACCUMULATION_STRONG` when
`off_exchange_trend > 0` and `ACCUMULATION_MODERATE` otherwise. -/
theorem C8_classifier (data : List Bar) (i w : ℕ) (th st : ℚ)
    (hlen : i + w < data.length)
    (hoff : th ≤ finraAvgOffPct data i w)
    (hpc : |finraPriceChange data i w| ≤ st)
    (hvol : volLE ((finraWindow data i w).map Bar.close) 3 = true) :
    (calculate_accumulation_signal data i w th st).map FinraResult.signal =
      some (if 0 < finraTrend data i w then Signal.ACCUMULATION_STRONG
            else Signal.ACCUMULATION_MODERATE) := by
  simp only [calculate_accumulation_signal]
  have hwlen : (finraWindow data i w).length = w := by
    unfold finraWindow; exact slice_length data i w (by omega)
  rw [if_neg (by omega : ¬ data.length ≤ i + w),
    if_neg (by rw [hwlen]; exact lt_irrefl w), if_pos ⟨hoff, hpc, hvol⟩]
  split_ifs with htr <;> simp

/-- C8 witness: spec §8 Scenario B — off-exchange 45% (threshold 35%),
price change +0.3% (stability threshold 1.0%), volatility ≈0.17%, trend
+5pp ⇒ `ACCUMULATION_STRONG`. -/
theorem C8_witness :
    (calculate_accumulation_signal D8acc 0 3 35 1).map FinraResult.signal =
      some Signal.ACCUMULATION_STRONG := by
  have h := C8_classifier D8acc 0 3 35 1 (by norm_num [D8acc])
    (by norm_num [finraAvgOffPct, finraWindow, D8acc, fb, meanQ])
    (by norm_num [finraPriceChange, D8acc, fb, closeAt, abs_le])
    (by norm_num [volLE, finraWindow, D8acc, fb, meanQ, sampleVar])
  rw [h, if_pos (by norm_num [finraTrend, finraWindow, D8acc, fb])]

/-! ## Claim C10 -/

/-- C10 (amended): `MegaBacktester.calculate_signal_for_window` computes its
metrics and entry data over the positive-off-exchange-volume sub-window: a
window with fewer than 2 such days yields no signal; otherwise the entry
price and date are those of the *last such day*, which lies strictly before
the window's final bar whenever that final bar has zero off-exchange volume
(the close *values* may still coincide, see the counterexample). -/
theorem C10_amended (data : List Bar) (i : ℕ) :
    ((megaComplete data i 3).length < 2 → calculate_signal_for_window data i 3 = none) ∧
    (∀ r, calculate_signal_for_window data i 3 = some r →
      2 ≤ (megaComplete data i 3).length ∧
      r.entry_price = ((megaComplete data i 3).getLastD default).close ∧
      r.entry_date = ((megaComplete data i 3).getLastD default).date ∧
      (((megaWindow data i 3).getLastD default).total_off_exchange_volume = 0 →
        (megaComplete data i 3).getLastD default ∈ (megaWindow data i 3).dropLast)) := by
  constructor
  · intro hlt
    simp only [calculate_signal_for_window]
    by_cases h1 : data.length ≤ i + 3
    · rw [if_pos h1]
    · rw [if_neg h1, if_pos hlt]
  · intro r hr
    simp only [calculate_signal_for_window] at hr
    by_cases h1 : data.length ≤ i + 3
    · rw [if_pos h1] at hr; exact Option.noConfusion hr
    rw [if_neg h1] at hr
    by_cases h2 : (megaComplete data i 3).length < 2
    · rw [if_pos h2] at hr; exact Option.noConfusion hr
    rw [if_neg h2] at hr
    push_neg at h2
    have hne : megaComplete data i 3 ≠ [] := by
      intro he; rw [he] at h2; simp at h2
    have hwne : megaWindow data i 3 ≠ [] := by
      intro he
      have : megaComplete data i 3 = [] := by
        unfold megaComplete; rw [he]; rfl
      exact hne this
    obtain rfl := Option.some.inj hr
    refine ⟨h2, ?_, ?_, ?_⟩
    · exact getLastD_map Bar.close 0 (megaComplete data i 3) default hne
    · exact getLastD_map Bar.date 0 (megaComplete data i 3) default hne
    · intro hzero
      have hpfalse : (fun b => decide (0 < b.total_off_exchange_volume))
          ((megaWindow data i 3).getLastD default) = false := by
        show decide ((0:ℚ) < ((megaWindow data i 3).getLastD default).total_off_exchange_volume)
          = false
        rw [hzero]
        simp
      exact filter_last_false_subset_dropLast _ (megaWindow data i 3) default hwne hpfalse
        _ (getLastD_mem (megaComplete data i 3) default hne)

/-- C10 counterexample: in the `D10m` series the trade fired at start index
0 has `entry_price = 100`, which *is* the close at index
`start + analysis_days - 1 = 2` (that day has zero off-exchange volume but
the same close value as the true entry day), refuting the claim's
"is not the close at index start + analysis_days - 1". -/
theorem C10_counterexample :
    (mega_backtest_symbol sym0 D10m 5).map MegaTrade.entry_price = [100] ∧
    closeAt D10m 2 = 100 ∧
    (D10m[2]?).map Bar.total_off_exchange_volume = some 0 := by
  refine ⟨?_, by norm_num [closeAt, D10m, mb], by norm_num [D10m, mb]⟩
  norm_num [mega_backtest_symbol, megaCandidates, megaTradeAt, calculate_signal_for_window,
    megaComplete, megaWindow, D10m, mb, meanQ, closeAt, dateAt, List.range_succ,
    Signal.isBuy, List.getLastD_cons, List.filterMap_cons, List.filterMap_nil]
  simp

/-- C10 witness: in the same series the window at start index 0 has exactly
the bars of days 0-1 as its positive-off-exchange sub-window; the signal's
entry price/date are those of day 1, a member of the window's first two
days. -/
theorem C10_witness :
    calculate_signal_for_window D10m 0 3 = some rm0 ∧
    rm0.entry_price = ((megaComplete D10m 0 3).getLastD default).close ∧
    (megaComplete D10m 0 3).getLastD default ∈ (megaWindow D10m 0 3).dropLast := by
  have hc : calculate_signal_for_window D10m 0 3 = some rm0 := by
    norm_num [calculate_signal_for_window, megaComplete, megaWindow, D10m, mb, meanQ,
      rm0, List.getLastD_cons]
  have h := (C10_amended D10m 0).2 rm0 hc
  exact ⟨hc, h.2.1, h.2.2.2 (by norm_num [megaWindow, D10m, mb, List.getLastD_cons])⟩

/-! ## Claim C6 -/

/-- C6 counterexample: in the `D19` run the single `SELL_STRONG` trade exits
exactly at its entry price, so the code's hit rate (built on the `correct`
direction flag, which treats a non-rising exit as "DOWN") is 100 while the
claimed `100 * count(return_pct > 0) / count` is 0. -/
theorem C6_counterexample :
    hit_rate (tradesOfSignal (super_backtest_configuration sym0 D19 2 1 (3/2) 1)
      Signal.SELL_STRONG) = 100 ∧
    100 * ((tradesOfSignal (super_backtest_configuration sym0 D19 2 1 (3/2) 1)
        Signal.SELL_STRONG).countP (fun t => decide (0 < t.return_pct)) : ℚ) /
      (tradesOfSignal (super_backtest_configuration sym0 D19 2 1 (3/2) 1)
        Signal.SELL_STRONG).length = 0 := by
  have hlist : super_backtest_configuration sym0 D19 2 1 (3/2) 1 = [t0s] := by
    norm_num [super_backtest_configuration, superCandidates, superTradeAt,
      calculate_signal_advanced, D19, pb, t0s, closeAt, meanQ, volLt, sampleVar,
      Signal.isBuy, List.filterMap_cons, List.filterMap_nil, List.range']
    simp
  rw [hlist]
  norm_num [tradesOfSignal, hit_rate, t0s, List.countP_cons, List.countP_nil]

/-- C6 (amended): the aggregated hit rate is
`100 * count(correct) / count` where `correct` records whether the predicted
direction matched (`exit > entry` counting as "UP"); for a trade with a
positive entry price this coincides with `return_pct > 0` for BUY-family
trades, but a SELL-family trade is counted correct iff `return_pct ≥ 0`, so
a SELL trade that exits exactly at its entry price is counted as a hit even
though its `return_pct` is 0. -/
theorem C6_amended (s : String) (data : List Bar) (a h i : ℕ) (vt pt : ℚ)
    (t : SuperTrade) (ht : superTradeAt s data a h vt pt i = some t)
    (hpos : 0 < closeAt data (i + a - 1)) :
    (t.signal.isBuy = true → (t.correct = true ↔ 0 < t.return_pct)) ∧
    (t.signal.isBuy = false → (t.correct = true ↔ 0 ≤ t.return_pct)) := by
  unfold superTradeAt at ht
  cases hc : calculate_signal_advanced data i a vt pt with
  | none => rw [hc] at ht; exact Option.noConfusion ht
  | some r =>
    rw [hc] at ht
    have hep : r.entry_price = closeAt data (i + a - 1) :=
      super_entry_price data i a vt pt r hc
    dsimp only at ht
    rw [hep] at ht
    by_cases hH : r.signal = Signal.HOLD
    · rw [if_pos hH] at ht; exact Option.noConfusion ht
    rw [if_neg hH] at ht
    by_cases hX : data.length ≤ i + a - 1 + h
    · rw [if_pos hX] at ht; exact Option.noConfusion ht
    rw [if_neg hX] at ht
    by_cases hB : r.signal.isBuy = true
    · rw [if_pos hB] at ht
      obtain rfl := Option.some.inj ht
      refine ⟨fun _ => ?_, fun hb => ?_⟩
      · dsimp only
        rw [hB]
        constructor
        · intro hcorr
          have hlt : closeAt data (i + a - 1) < closeAt data (i + a - 1 + h) := by
            simpa using hcorr
          exact mul_pos (div_pos (by linarith) hpos) (by norm_num)
        · intro hret
          have hlt : closeAt data (i + a - 1) < closeAt data (i + a - 1 + h) := by
            by_contra hge
            push_neg at hge
            have h1 : (closeAt data (i + a - 1 + h) - closeAt data (i + a - 1)) /
                closeAt data (i + a - 1) ≤ 0 :=
              div_nonpos_of_nonpos_of_nonneg (by linarith) (le_of_lt hpos)
            linarith
          simp [hlt]
      · dsimp only at hb; rw [hB] at hb; exact Bool.noConfusion hb
    · rw [if_neg hB] at ht
      have hb0 : r.signal.isBuy = false := by simpa using hB
      obtain rfl := Option.some.inj ht
      refine ⟨fun hb => ?_, fun _ => ?_⟩
      · dsimp only at hb; rw [hb0] at hb; exact Bool.noConfusion hb
      · dsimp only
        rw [hb0]
        constructor
        · intro hcorr
          have hge : ¬ closeAt data (i + a - 1) < closeAt data (i + a - 1 + h) := by
            simpa using hcorr
          push_neg at hge
          have h1 : (closeAt data (i + a - 1 + h) - closeAt data (i + a - 1)) /
              closeAt data (i + a - 1) ≤ 0 :=
            div_nonpos_of_nonpos_of_nonneg (by linarith) (le_of_lt hpos)
          linarith
        · intro hret
          have hnlt : ¬ closeAt data (i + a - 1) < closeAt data (i + a - 1 + h) := by
            intro hlt
            have h1 : 0 < (closeAt data (i + a - 1 + h) - closeAt data (i + a - 1)) /
                closeAt data (i + a - 1) := div_pos (by linarith) hpos
            have h2 : 0 < (closeAt data (i + a - 1 + h) - closeAt data (i + a - 1)) /
                closeAt data (i + a - 1) * 100 := mul_pos h1 (by norm_num)
            linarith
          simp [hnlt]

/-- C6 witness: the boundary trade of `D19` — a SELL-family trade with
`return_pct = 0` — is counted correct, exactly as the amended claim says. -/
theorem C6_witness :
    superTradeAt sym0 D19 2 1 (3/2) 1 15 = some t0s ∧ 0 < closeAt D19 (15 + 2 - 1) ∧
    (t0s.correct = true ↔ 0 ≤ t0s.return_pct) := by
  have hc : superTradeAt sym0 D19 2 1 (3/2) 1 15 = some t0s := by
    norm_num [superTradeAt, calculate_signal_advanced, D19, pb, t0s, closeAt, meanQ,
      volLt, sampleVar, Signal.isBuy]
    exact fun hcontra => Signal.noConfusion hcontra
  have hpos : 0 < closeAt D19 (15 + 2 - 1) := by norm_num [closeAt, D19, pb]
  exact ⟨hc, hpos,
    (C6_amended sym0 D19 2 1 15 (3/2) 1 t0s hc hpos).2 (by norm_num [t0s, Signal.isBuy])⟩

/-! ## Claim C7 -/

theorem sum_sq_shift (c : ℚ) : ∀ l : List ℚ,
    (l.map (fun x => (x - c) ^ 2)).sum =
      (l.map (fun x => x ^ 2)).sum - 2 * c * l.sum + l.length * c ^ 2 := by
  intro l
  induction l with
  | nil => simp
  | cons a t ih =>
    simp only [List.map_cons, List.sum_cons, List.length_cons, ih]
    push_cast
    ring

theorem correctVals_sum (l : List Bool) : (correctVals l).sum = (l.countP id : ℚ) := by
  induction l with
  | nil => simp [correctVals]
  | cons b t ih =>
    cases b
    · simpa [correctVals, List.countP_cons] using ih
    · simp only [correctVals, List.map_cons, List.sum_cons, List.countP_cons] at ih ⊢
      rw [ih]
      simp
      ring

theorem correctVals_sumsq (l : List Bool) :
    ((correctVals l).map (fun x => x ^ 2)).sum = (l.countP id : ℚ) := by
  induction l with
  | nil => simp [correctVals]
  | cons b t ih =>
    cases b
    · simpa [correctVals, List.countP_cons] using ih
    · simp only [correctVals, List.map_cons, List.sum_cons, List.countP_cons] at ih ⊢
      rw [ih]
      simp
      ring

theorem correctVals_length (l : List Bool) : (correctVals l).length = l.length := by
  simp [correctVals]

/-- The sample variance of a 0/1 `correct` column is `n·p·(1-p)/(n-1)` where
`p` is the hit fraction. -/
theorem sampleVar_correctVals (l : List Bool) (h2 : 2 ≤ l.length) :
    sampleVar (correctVals l) =
      (l.length : ℚ) * hitFrac l * (1 - hitFrac l) / ((l.length : ℚ) - 1) := by
  have hn : (l.length : ℚ) ≠ 0 := by
    have h2q : (2:ℚ) ≤ (l.length : ℚ) := by exact_mod_cast h2
    intro h0; rw [h0] at h2q; norm_num at h2q
  have hn1 : (l.length : ℚ) - 1 ≠ 0 := by
    have h2q : (2:ℚ) ≤ (l.length : ℚ) := by exact_mod_cast h2
    intro h0; nlinarith
  unfold sampleVar hitFrac
  rw [sum_sq_shift, correctVals_sum, correctVals_sumsq, correctVals_length]
  unfold meanQ
  rw [correctVals_sum, correctVals_length]
  field_simp
  ring

/-- C7 (amended): for `n ≥ 2` trades the reported 95% half-width equals
`1.96 * sqrt(p(1-p)/(n-1)) * 100` — the sample (`ddof = 1`) standard error,
with `n - 1` in place of the claim's `n` (and it is `0` for `n ≤ 1` by
`ultraCI`'s explicit branch). -/
theorem C7_amended (l : List Bool) (h2 : 2 ≤ l.length) :
    ultraCI l = 1.96 * Real.sqrt ((hitFrac l : ℝ) * (1 - (hitFrac l : ℝ)) /
      ((l.length : ℝ) - 1)) * 100 := by
  have h2r : (2:ℝ) ≤ (l.length : ℝ) := by exact_mod_cast h2
  have hn0 : (0:ℝ) < (l.length : ℝ) := by linarith
  have hne : (l.length : ℝ) ≠ 0 := ne_of_gt hn0
  have hne1 : (l.length : ℝ) - 1 ≠ 0 := by intro h0; nlinarith
  have hp0 : (0:ℚ) ≤ hitFrac l := by
    unfold hitFrac; positivity
  have hp1 : hitFrac l ≤ 1 := by
    unfold hitFrac
    rw [div_le_one (by exact_mod_cast Nat.lt_of_lt_of_le Nat.zero_lt_two h2)]
    exact_mod_cast List.countP_le_length id
  have hp0r : (0:ℝ) ≤ (hitFrac l : ℝ) := by exact_mod_cast hp0
  have hp1r : (hitFrac l : ℝ) ≤ 1 := by exact_mod_cast hp1
  unfold ultraCI
  rw [if_pos (by omega : 1 < l.length), sampleVar_correctVals l h2]
  rw [show (((l.length : ℚ) * hitFrac l * (1 - hitFrac l) / ((l.length : ℚ) - 1) : ℚ) : ℝ) =
      (l.length : ℝ) * (hitFrac l : ℝ) * (1 - (hitFrac l : ℝ)) / ((l.length : ℝ) - 1) by
    push_cast; ring]
  have hA : (0:ℝ) ≤ (l.length : ℝ) * (hitFrac l : ℝ) * (1 - (hitFrac l : ℝ)) /
      ((l.length : ℝ) - 1) := by
    apply div_nonneg
    · apply mul_nonneg (mul_nonneg (le_of_lt hn0) hp0r)
      linarith
    · linarith
  rw [← Real.sqrt_div hA (l.length : ℝ)]
  rw [show (l.length : ℝ) * (hitFrac l : ℝ) * (1 - (hitFrac l : ℝ)) /
      ((l.length : ℝ) - 1) / (l.length : ℝ) =
      (hitFrac l : ℝ) * (1 - (hitFrac l : ℝ)) / ((l.length : ℝ) - 1) by
    field_simp
    ring]

/-- C7 witness: the amended formula evaluated on a two-trade group with one
hit and one miss. -/
theorem C7_witness :
    ultraCI [true, false] =
      1.96 * Real.sqrt ((hitFrac [true, false] : ℝ) * (1 - (hitFrac [true, false] : ℝ)) /
        (([true, false].length : ℕ) - 1 : ℝ)) * 100 := by
  have h := C7_amended [true, false] (by norm_num)
  simpa using h

/-- C7 counterexample: on a two-trade group with one hit and one miss the
code reports `1.96 · std/√n · 100 = 98` (pandas' sample std, `ddof = 1`)
while the spec's `1.96·sqrt(p(1-p)/n)·100` is `49·√2 ≈ 69.3`. -/
theorem C7_counterexample :
    ultraCI [true, false] ≠ specHitHalfWidth (hitFrac [true, false] : ℝ) 2 := by
  have hvar : sampleVar (correctVals [true, false]) = 1/2 := by
    norm_num [sampleVar, correctVals, meanQ]
  have hp : hitFrac [true, false] = 1/2 := by
    norm_num [hitFrac, List.countP_cons, List.countP_nil]
  have hL : ultraCI [true, false] = 98 := by
    unfold ultraCI
    rw [if_pos (by norm_num), hvar]
    have hkey : Real.sqrt ((1/2 : ℝ)) / Real.sqrt 2 = 1/2 := by
      rw [← Real.sqrt_div (by norm_num : (0:ℝ) ≤ 1/2) 2,
        show ((1/2 : ℝ))/2 = (1/2) ^ 2 by norm_num, Real.sqrt_sq (by norm_num : (0:ℝ) ≤ 1/2)]
    have hcast : (((1/2 : ℚ)) : ℝ) = (1/2 : ℝ) := by norm_num
    have hlen : (([true, false].length : ℕ) : ℝ) = 2 := by norm_num
    rw [hcast, hlen, hkey]
    norm_num
  have hR : specHitHalfWidth ((hitFrac [true, false] : ℚ) : ℝ) 2 =
      1.96 * Real.sqrt (1/8 : ℝ) * 100 := by
    unfold specHitHalfWidth
    rw [if_neg (by norm_num), hp]
    rw [show (((1/2 : ℚ)) : ℝ) * (1 - ((1/2 : ℚ) : ℝ)) / ((2:ℕ) : ℝ) = (1/8 : ℝ) by
      push_cast; norm_num]
  rw [hL, hR]
  intro heq
  have h8 : Real.sqrt (1/8 : ℝ) = 1/2 := by linarith
  have hsq := Real.sq_sqrt (by norm_num : (0:ℝ) ≤ 1/8)
  rw [h8] at hsq
  norm_num at hsq

end Shark
